import Mathlib

/-!
Shallow embedding of `src/shillelagh/adapters/api/gsheets.py`: the GSheets
adapter's typed field conversions, URL resolution, schema resolution and the
row-identity mutation manager, together with proofs about the specified
behaviours.  Network interaction is modelled by passing the remote responses
as explicit arguments and recording how many requests an operation issues.
-/

deriving instance DecidableEq for Except

set_option synthInstance.maxSize 2048

namespace GSheets

/-! ## Python-style cell values and insertion-ordered dictionaries -/

/-- A spreadsheet cell value as it appears in the adapter: a string, an
integer or a boolean.  A Python `None` is modelled as `Option.none` around
this type.  (Floats are out of scope for every claim considered here.) -/
inductive Value where
  | str (s : String)
  | int (n : Int)
  | bool (b : Bool)
deriving DecidableEq, Repr

/-- A Python `dict` as an insertion-ordered association list with unique
keys (all dictionaries below are built with `dictInsert`, which updates in
place like Python assignment does). -/
abbrev Dict (α β : Type) := List (α × β)

def dictLookup {α β : Type} [DecidableEq α] : Dict α β → α → Option β
  | [], _ => none
  | (k, v) :: rest, j => if k = j then some v else dictLookup rest j

/-- `m[k] = v` in Python: update the existing entry in place, else append. -/
def dictInsert {α β : Type} [DecidableEq α] : Dict α β → α → β → Dict α β
  | [], k, v => [(k, v)]
  | (k0, v0) :: rest, k, v =>
    if k0 = k then (k, v) :: rest else (k0, v0) :: dictInsert rest k v

/-- `del m[k]` in Python.  Python dictionaries have unique keys, so removing
every pair carrying the key is the same as removing its single entry. -/
def dictDelete {α β : Type} [DecidableEq α] : Dict α β → α → Dict α β
  | [], _ => []
  | (k0, v0) :: rest, k =>
    if k0 = k then dictDelete rest k else (k0, v0) :: dictDelete rest k

def dictHasKey {α β : Type} [DecidableEq α] (m : Dict α β) (k : α) : Bool :=
  (dictLookup m k).isSome

/-- `m.pop(k)`: `none` when the key is absent (a `KeyError` in Python). -/
def dictPop {α β : Type} [DecidableEq α] (m : Dict α β) (k : α) :
    Option (β × Dict α β) :=
  match dictLookup m k with
  | none => none
  | some v => some (v, dictDelete m k)

/-- A Python dict comprehension over a list of pairs (later pairs win). -/
def dictOfList {α β : Type} [DecidableEq α] (l : List (α × β)) : Dict α β :=
  l.foldl (fun m p => dictInsert m p.1 p.2) []

/-- A row as yielded/stored by the adapter: column label to optional value. -/
abbrev Row := Dict String (Option Value)

/-- The adapter's row identity map `self.row_ids : Dict[int, Row]`. -/
abbrev IdMap := Dict Int Row

/-! ## Python string helpers: `str.strip`, `int(...)`, `str.split` -/

/-- The whitespace characters stripped by Python's `str.strip()` /
skipped by `int(...)` (ASCII portion). -/
def isPySpace (c : Char) : Bool :=
  c == ' ' || c == '\t' || c == '\n' || c == '\r' || c == '\x0b' || c == '\x0c'

def stripTrailing (cs : List Char) : List Char :=
  (cs.reverse.dropWhile isPySpace).reverse

/-- Python `str.strip()` on a list of characters. -/
def pyStrip (cs : List Char) : List Char :=
  stripTrailing (cs.dropWhile isPySpace)

/-- Python `str.strip()`. -/
def pyStripStr (s : String) : String :=
  String.mk (pyStrip s.data)

def digitVal (c : Char) : Option Nat :=
  if c.isDigit then some (c.toNat - '0'.toNat) else none

def digitsValGo : List Char → Nat → Option Nat
  | [], acc => some acc
  | c :: rest, acc =>
    match digitVal c with
    | none => none
    | some d => digitsValGo rest (acc * 10 + d)

/-- The value of a non-empty all-digit character list. -/
def digitsVal : List Char → Option Nat
  | [] => none
  | cs => digitsValGo cs 0

/-- Python `int(s)`: optional surrounding whitespace, an optional sign and a
non-empty run of digits.  (Underscore digit grouping is not modelled; it
never occurs in the adapter's inputs.)  `none` models a `ValueError`. -/
def pyIntChars (cs : List Char) : Option Int :=
  match pyStrip cs with
  | [] => none
  | c :: ds =>
    if c = '-' then (digitsVal ds).map (fun n => -(n : Int))
    else if c = '+' then (digitsVal ds).map (fun n => (n : Int))
    else (digitsVal (c :: ds)).map (fun n => (n : Int))

def pyInt (s : String) : Except String Int :=
  match pyIntChars s.data with
  | some n => .ok n
  | none => .error "ValueError"

/-- Python `str(n)` for an integer. -/
def intStr (n : Int) : String := toString n

/-- Python `s.split(sep)` for a one-character separator; `"".split(",")`
gives `[""]`, matching this definition on `[]`. -/
def splitChar (sep : Char) : List Char → List (List Char)
  | [] => [[]]
  | c :: rest =>
    if c = sep then [] :: splitChar sep rest
    else
      match splitChar sep rest with
      | [] => [[c]]
      | p :: ps => (c :: p) :: ps

/-! ## Python `datetime` values

`datetime.datetime` / `date` / `time` with a fixed-offset timezone (the
sheet timezone resolved by the adapter), enough for the conversions the
adapter performs.  All constructors validate ranges like Python does. -/

structure PyDateTime where
  year : Nat
  month : Nat
  day : Nat
  hour : Nat
  minute : Nat
  second : Nat
  microsecond : Nat
  /-- fixed UTC offset in minutes; `none` is a naive datetime -/
  tz : Option Int
deriving DecidableEq, Repr

structure PyDate where
  year : Nat
  month : Nat
  day : Nat
deriving DecidableEq, Repr

structure PyTime where
  hour : Nat
  minute : Nat
  second : Nat
  microsecond : Nat
deriving DecidableEq, Repr

def isLeap (y : Nat) : Bool :=
  y % 4 == 0 && (y % 100 != 0 || y % 400 == 0)

def daysInMonth (y m : Nat) : Nat :=
  if m == 2 then (if isLeap y then 29 else 28)
  else if m == 4 || m == 6 || m == 9 || m == 11 then 30
  else 31

/-- `datetime.datetime(y, m, d, h, mi, s, us, tzinfo)` with Python's range
validation (`ValueError` on failure). -/
def checkDT (y m d h mi s us : Int) (tz : Option Int) :
    Except String PyDateTime :=
  if 1 ≤ y ∧ y ≤ 9999 ∧ 1 ≤ m ∧ m ≤ 12 ∧ 1 ≤ d ∧
      d ≤ (daysInMonth y.toNat m.toNat : Int) ∧
      0 ≤ h ∧ h ≤ 23 ∧ 0 ≤ mi ∧ mi ≤ 59 ∧ 0 ≤ s ∧ s ≤ 59 ∧
      0 ≤ us ∧ us ≤ 999999 then
    .ok ⟨y.toNat, m.toNat, d.toNat, h.toNat, mi.toNat, s.toNat, us.toNat, tz⟩
  else .error "ValueError"

/-- `datetime.datetime(*args, tzinfo=tz)`: 3 to 7 positional arguments,
otherwise a `TypeError`. -/
def mkDatetime (args : List Int) (tz : Option Int) : Except String PyDateTime :=
  match args with
  | [y, m, d] => checkDT y m d 0 0 0 0 tz
  | [y, m, d, h] => checkDT y m d h 0 0 0 tz
  | [y, m, d, h, mi] => checkDT y m d h mi 0 0 tz
  | [y, m, d, h, mi, s] => checkDT y m d h mi s 0 tz
  | [y, m, d, h, mi, s, us] => checkDT y m d h mi s us tz
  | _ => .error "TypeError"

def checkDate (y m d : Int) : Except String PyDate :=
  if 1 ≤ y ∧ y ≤ 9999 ∧ 1 ≤ m ∧ m ≤ 12 ∧ 1 ≤ d ∧
      d ≤ (daysInMonth y.toNat m.toNat : Int) then
    .ok ⟨y.toNat, m.toNat, d.toNat⟩
  else .error "ValueError"

def checkTime (h mi s us : Int) : Except String PyTime :=
  if 0 ≤ h ∧ h ≤ 23 ∧ 0 ≤ mi ∧ mi ≤ 59 ∧ 0 ≤ s ∧ s ≤ 59 ∧
      0 ≤ us ∧ us ≤ 999999 then
    .ok ⟨h.toNat, mi.toNat, s.toNat, us.toNat⟩
  else .error "ValueError"

/-! ## Calendar arithmetic for `datetime.astimezone`

Standard civil-calendar conversions (days to/from year-month-day); used
only to execute `astimezone` for fixed-offset timezones. -/

def daysFromCivil (y m d : Int) : Int :=
  let y := if m ≤ 2 then y - 1 else y
  let era := y.fdiv 400
  let yoe := y - era * 400
  let mp := if m > 2 then m - 3 else m + 9
  let doy := (153 * mp + 2) / 5 + d - 1
  let doe := yoe * 365 + yoe / 4 - yoe / 100 + doy
  era * 146097 + doe - 719468

def civilFromDays (z : Int) : Int × Int × Int :=
  let z := z + 719468
  let era := z.fdiv 146097
  let doe := z - era * 146097
  let yoe := (doe - doe / 1460 + doe / 36524 - doe / 146096) / 365
  let y := yoe + era * 400
  let doy := doe - (365 * yoe + yoe / 4 - yoe / 100)
  let mp := (5 * doy + 2) / 153
  let d := doy - (153 * mp + 2) / 5 + 1
  let m := if mp < 10 then mp + 3 else mp - 9
  (if m ≤ 2 then y + 1 else y, m, d)

/-- `value.astimezone(target)` for an aware datetime with a fixed-offset
timezone.  A naive datetime would be interpreted in the process-local
timezone, which is outside the model; Python raises `OverflowError` when
the shifted date leaves `datetime`'s year range. -/
def astimezone (target : Int) (v : PyDateTime) : Except String PyDateTime :=
  match v.tz with
  | none => .error "astimezone on a naive datetime is unmodelled"
  | some off =>
    let localMinutes : Int :=
      daysFromCivil v.year v.month v.day * 1440 + v.hour * 60 + v.minute
    let shifted := localMinutes - off + target
    let days := shifted.fdiv 1440
    let rem := shifted - days * 1440
    let c := civilFromDays days
    if 1 ≤ c.1 ∧ c.1 ≤ 9999 then
      .ok ⟨c.1.toNat, c.2.1.toNat, c.2.2.toNat, (rem / 60).toNat,
        (rem % 60).toNat, v.second, v.microsecond, some target⟩
    else .error "OverflowError"

/-! ## `GSheetsDateTime`, `GSheetsDate`, `GSheetsTime` conversions -/

/-- `[int(number) for number in pieces]`: the whole comprehension fails
(`ValueError`) as soon as one piece is not a valid integer literal. -/
def mapIntAll : List (List Char) → Option (List Int)
  | [] => some []
  | p :: ps =>
    match pyIntChars p with
    | none => none
    | some n => (mapIntAll ps).map (fun l => n :: l)

/-- `GSheetsDateTime.parse`: `None` passes through; otherwise the payload is
sliced as `value[len("Date(") : -1]`, split on commas, each piece converted
with `int(...)`, the zero-indexed month incremented, and the result passed
to `datetime.datetime(*args, tzinfo=self.timezone)`. -/
def GSheetsDateTime.parse (tz : Option Int) (value : Option String) :
    Except String (Option PyDateTime) :=
  match value with
  | none => .ok none
  | some v =>
    match mapIntAll (splitChar ',' ((v.data.drop 5).dropLast)) with
    | none => .error "ValueError"
    | some [] => .error "IndexError"
    | some [_] => .error "IndexError"
    | some (y :: m :: rest) => (mkDatetime (y :: (m + 1) :: rest) tz).map some

/-- Two zero-padded decimal digits: `strftime`'s `%m`, `%d`, `%H`, `%M`,
`%S` rendering (all those fields are below 100 for any Python datetime). -/
def pad2 (n : Nat) : List Char :=
  [Nat.digitChar (n / 10 % 10), Nat.digitChar (n % 10)]

/-- Decimal digits of a natural number, with explicit fuel so that the
definition reduces by iota (the first argument always suffices). -/
def natCharsAux : Nat → Nat → List Char
  | 0, _ => []
  | fuel + 1, n =>
    if n < 10 then [Nat.digitChar (n % 10)]
    else natCharsAux fuel (n / 10) ++ [Nat.digitChar (n % 10)]

/-- Decimal digits of a natural number: `strftime`'s `%Y` rendering. -/
def natChars (n : Nat) : List Char :=
  natCharsAux (n + 1) n

/-- `value.strftime("%m/%d/%Y %H:%M:%S")`. -/
def strftimeChars (v : PyDateTime) : List Char :=
  pad2 v.month ++ '/' :: pad2 v.day ++ '/' :: natChars v.year ++ ' ' ::
    pad2 v.hour ++ ':' :: pad2 v.minute ++ ':' :: pad2 v.second

/-- `GSheetsDateTime.format`: `None` passes through; when the adapter has a
sheet timezone the value is first converted with `astimezone` (a datetime
object is always truthy, so the final `if value` in the source always takes
the `strftime` branch). -/
def GSheetsDateTime.format (tz : Option Int) (value : Option PyDateTime) :
    Except String (Option String) :=
  match value with
  | none => .ok none
  | some v =>
    match tz with
    | some target =>
      (astimezone target v).map (fun w => some (String.mk (strftimeChars w)))
    | none => .ok (some (String.mk (strftimeChars v)))

/-- `GSheetsDate.parse`: like the datetime version, but the argument list is
handed to `datetime.date(*args)`, which takes exactly three arguments. -/
def GSheetsDate.parse (value : Option String) : Except String (Option PyDate) :=
  match value with
  | none => .ok none
  | some v =>
    match mapIntAll (splitChar ',' ((v.data.drop 5).dropLast)) with
    | none => .error "ValueError"
    | some [] => .error "IndexError"
    | some [_] => .error "IndexError"
    | some (y :: m :: rest) =>
      match rest with
      | [d] => (checkDate y (m + 1) d).map some
      | _ => .error "TypeError"

/-- `GSheetsTime.parse`: `None` passes through; otherwise the value list is
handed to `datetime.time(*values)` (0 to 4 usable positional arguments; a
fifth positional argument would have to be a tzinfo, so an integer there is
a `TypeError`). -/
def GSheetsTime.parse (values : Option (List Int)) :
    Except String (Option PyTime) :=
  match values with
  | none => .ok none
  | some vs =>
    match vs with
    | [] => (checkTime 0 0 0 0).map some
    | [h] => (checkTime h 0 0 0).map some
    | [h, mi] => (checkTime h mi 0 0).map some
    | [h, mi, s] => (checkTime h mi s 0).map some
    | [h, mi, s, us] => (checkTime h mi s us).map some
    | _ => .error "TypeError"

/-! ## URL resolution (`get_url`)

`urllib.parse` is modelled at the character level: enough of `urlparse`,
`parse_qs`, `urlencode` (with `quote_plus`) and `urlunparse` to cover the
URLs the adapter handles.  Percent-decoding of query-string values is not
modelled (the adapter's parameters are plain text and digits). -/

structure UrlParts where
  scheme : String
  netloc : String
  path : String
  query : String
  fragment : String
deriving DecidableEq, Repr

def isPrefList : List Char → List Char → Bool
  | [], _ => true
  | _ :: _, [] => false
  | a :: xs, b :: ys => a == b && isPrefList xs ys

/-- Split at the first occurrence of `sep`: `some (before, after)`. -/
def findSub (sep : List Char) : List Char → Option (List Char × List Char)
  | [] => if sep.isEmpty then some ([], []) else none
  | c :: rest =>
    if isPrefList sep (c :: rest) then some ([], (c :: rest).drop sep.length)
    else
      match findSub sep rest with
      | none => none
      | some (a, b) => some (c :: a, b)

def splitOnce (s sep : String) : String × Option String :=
  match findSub sep.data s.data with
  | none => (s, none)
  | some (a, b) => (String.mk a, some (String.mk b))

/-- `urllib.parse.urlparse`, restricted to the absolute `scheme://host/...`
and scheme-less forms the adapter receives: the fragment is split at the
first `#`, the query at the first `?`, the scheme at the first `://`, and
the network location extends to the following `/`. -/
def urlparse (uri : String) : UrlParts :=
  let p1 := splitOnce uri "#"
  let fragment := p1.2.getD ""
  let p2 := splitOnce p1.1 "?"
  let query := p2.2.getD ""
  match splitOnce p2.1 "://" with
  | (_, none) => ⟨"", "", p2.1, query, fragment⟩
  | (scheme, some rest) =>
    ⟨scheme, String.mk (rest.data.takeWhile (fun c => c != '/')),
      String.mk (rest.data.dropWhile (fun c => c != '/')), query, fragment⟩

/-- One `name=value` field of a query string (`parse_qsl` with default
settings: fields without `=` or with an empty value are dropped). -/
def parseQsPair (field : List Char) : Option (String × String) :=
  match findSub ['='] field with
  | none => none
  | some (k, v) => if v.isEmpty then none else some (String.mk k, String.mk v)

/-- `urllib.parse.parse_qs`, as the ordered list of `name=value` pairs (the
dict-of-lists view is recovered by `lastVal`, which is all the source
uses: `qs[name][-1]`). -/
def pyParseQs (query : String) : List (String × String) :=
  (splitChar '&' query.data).filterMap parseQsPair

/-- `qs[k][-1]` when `k in qs`, else `none`. -/
def lastVal (qs : List (String × String)) (k : String) : Option String :=
  ((qs.filter (fun p => p.1 == k)).getLast?).map (fun p => p.2)

/-- `path[: -len("/edit")] if path.endswith("/edit") else path` (the suffix
test is spelled on reversed character lists so that it reduces by iota). -/
def stripEdit (path : String) : String :=
  if isPrefList "/edit".data.reverse path.data.reverse then
    String.mk (path.data.take (path.data.length - 5))
  else path

/-- `path.rstrip("/")`. -/
def rstripSlash (path : String) : String :=
  String.mk ((path.data.reverse.dropWhile (fun c => c == '/')).reverse)

/-- `"/".join((path.rstrip("/"), "gviz/tq"))` after the `/edit` strip. -/
def apiPath (path : String) : String :=
  rstripSlash (stripEdit path) ++ "/gviz/tq"

/-- `headers = int(qs["headers"][-1]) if "headers" in qs` (else the
caller-supplied default). -/
def effHeaders (qs : List (String × String)) (headers : Int) :
    Except String Int :=
  match lastVal qs "headers" with
  | some v => pyInt v
  | none => .ok headers

/-- `gid = int(qs["gid"][-1]) if "gid" in qs` (else the default). -/
def qsGid (qs : List (String × String)) (gid : Int) : Except String Int :=
  match lastVal qs "gid" with
  | some v => pyInt v
  | none => .ok gid

/-- `parts.fragment.startswith("gid=")`. -/
def fragGid (fragment : String) : Bool :=
  isPrefList "gid=".data fragment.data

/-- The effective `gid`: the query-string value replaces the default, and a
`gid=N` fragment overrides both (each `int(...)` conversion runs in source
order, so either conversion failing is a `ValueError`). -/
def effGid (qs : List (String × String)) (fragment : String) (gid : Int) :
    Except String Int := do
  let g ← qsGid qs gid
  if fragGid fragment then pyInt (String.mk (fragment.data.drop 4))
  else pure g

/-- `sheet = qs["sheet"][-1] if "sheet" in qs` (else the default). -/
def effSheet (qs : List (String × String)) (sheet : Option String) :
    Option String :=
  match lastVal qs "sheet" with
  | some v => some v
  | none => sheet

/-- The `args` dict: `headers` only when positive, then `sheet` if present,
else `gid` (always). -/
def argsOf (headers gid : Int) (sheet : Option String) :
    List (String × String) :=
  (if headers > 0 then [("headers", intStr headers)] else []) ++
  (match sheet with
   | some s => [("sheet", s)]
   | none => [("gid", intStr gid)])

def resolveArgs (qs : List (String × String)) (fragment : String)
    (headers gid : Int) (sheet : Option String) :
    Except String (List (String × String)) := do
  let h ← effHeaders qs headers
  let g ← effGid qs fragment gid
  pure (argsOf h g (effSheet qs sheet))

def hexDigitUpper (n : Nat) : Char :=
  if n < 10 then Nat.digitChar n else Char.ofNat ('A'.toNat + (n - 10))

/-- UTF-8 bytes of a character (what `quote_plus` percent-encodes). -/
def utf8Bytes (c : Char) : List Nat :=
  let n := c.toNat
  if n < 0x80 then [n]
  else if n < 0x800 then [0xC0 + n / 0x40, 0x80 + n % 0x40]
  else if n < 0x10000 then
    [0xE0 + n / 0x1000, 0x80 + n / 0x40 % 0x40, 0x80 + n % 0x40]
  else
    [0xF0 + n / 0x40000, 0x80 + n / 0x1000 % 0x40, 0x80 + n / 0x40 % 0x40,
      0x80 + n % 0x40]

/-- `urllib.parse.quote_plus` on one character: space becomes `+`,
alphanumerics and `_.-~` pass through, anything else is percent-encoded. -/
def quotePlusChar (c : Char) : List Char :=
  if c = ' ' then ['+']
  else if c.isAlphanum || c = '_' || c = '.' || c = '-' || c = '~' then [c]
  else
    (utf8Bytes c).foldr
      (fun b acc => '%' :: hexDigitUpper (b / 16) :: hexDigitUpper (b % 16) :: acc)
      []

def quotePlus (s : String) : String :=
  String.mk (s.data.foldr (fun c acc => quotePlusChar c ++ acc) [])

/-- `urllib.parse.urlencode` (using `quote_plus` on names and values). -/
def urlencode (args : List (String × String)) : String :=
  String.intercalate "&"
    (args.map (fun p => quotePlus p.1 ++ "=" ++ quotePlus p.2))

/-- `urllib.parse.urlunparse((scheme, netloc, path, None, query, None))`:
the output never carries a fragment. -/
def urlunparse (scheme netloc path query : String) : String :=
  let url := if netloc ≠ "" then "//" ++ netloc ++ path else path
  let url := if scheme ≠ "" then scheme ++ ":" ++ url else url
  if query ≠ "" then url ++ "?" ++ query else url

/-- `get_url`: return the gviz API URL given the spreadsheet URL.  A failed
`int(...)` conversion is a `ValueError`. -/
def get_url (uri : String) (headers gid : Int) (sheet : Option String) :
    Except String String := do
  let parts := urlparse uri
  let qs := pyParseQs parts.query
  let args ← resolveArgs qs parts.fragment headers gid sheet
  pure (urlunparse parts.scheme parts.netloc (apiPath parts.path)
    (urlencode args))

/-! ## Schema resolution (`_set_columns`) -/

/-- The typed field kind `get_field` selects for a declared column type.
(Each resolved field also carries `order=Order.ANY`, `exact=True` and the
type's filter set, uniform details not needed by the claims here.) -/
inductive FieldKind where
  | string
  | number
  | boolean
  | date
  | datetime
  | timeofday
deriving DecidableEq, Repr

/-- A probe-result column: provider id, label and declared type. -/
structure Col where
  id : String
  label : String
  type_ : String
deriving DecidableEq, Repr

/-- `get_field`: `type_map.get(col["type"], (String, [Equal]))` — unknown
or unspecified types default to String. -/
def get_field (t : String) : FieldKind :=
  if t = "string" then .string
  else if t = "number" then .number
  else if t = "boolean" then .boolean
  else if t = "date" then .date
  else if t = "datetime" then .datetime
  else if t = "timeofday" then .timeofday
  else .string

/-- `col["label"] = cell["v"]`: assigning a null or non-string cell value as
a label makes the later `.strip()` call fail, modelled as an error. -/
def cellStr : Option Value → Except String String
  | some (.str s) => .ok s
  | _ => .error "TypeError: label is not a string"

/-- `for col, cell in zip(cols, rows[0]["c"]): col["label"] = cell["v"]`
(`zip` stops at the shorter sequence; the remaining columns keep their
labels). -/
def relabelFromRow : List Col → List (Option Value) → Except String (List Col)
  | [], _ => .ok []
  | cs, [] => .ok cs
  | c :: cs, v :: vs => do
    let s ← cellStr v
    let rest ← relabelFromRow cs vs
    pure ({ c with label := s } :: rest)

/-- The pure form of `relabelFromRow` when every zipped cell is a string. -/
def relabelZip (cols : List Col) (strs : List String) : List Col :=
  (cols.zip strs).map (fun p => { p.1 with label := p.2 }) ++
    cols.drop strs.length

/-- All first-row cells as strings (the hypothesis under which relabelling
succeeds). -/
def cellsAsStrs : List (Option Value) → Option (List String)
  | [] => some []
  | some (.str s) :: rest => (cellsAsStrs rest).map (fun l => s :: l)
  | _ :: _ => none

/-- `self._column_map = \x7bcol["label"].strip(): col["id"] for col in cols\x7d`. -/
def columnMapOf (cols : List Col) : Dict String String :=
  dictOfList (cols.map (fun c => (pyStripStr c.label, c.id)))

/-- `self.columns = \x7b... for col in cols if col["label"].strip()\x7d`. -/
def columnsOf (cols : List Col) : Dict String FieldKind :=
  dictOfList ((cols.filter (fun c => pyStripStr c.label != "")).map
    (fun c => (pyStripStr c.label, get_field c.type_)))

/-- `_set_columns` (pure part, after the `SELECT * LIMIT 1` probe): apply
the empty-labels policy, then build the label-to-id map and the exposed
schema.  Returns `(firstDataRowOffset, columnMap, columns)`. -/
def set_columns (cols : List Col) (rows : List (List (Option Value))) :
    Except String (Nat × Dict String String × Dict String FieldKind) :=
  if cols.all (fun c => c.label == "") then
    match rows with
    | r0 :: _ => do
      let cols2 ← relabelFromRow cols r0
      pure (1, columnMapOf cols2, columnsOf cols2)
    | [] =>
      let cols2 := cols.map (fun c => { c with label := c.id })
      pure (0, columnMapOf cols2, columnsOf cols2)
  else
    pure (0, columnMapOf cols, columnsOf cols)

/-! ## Filters, query translation and the read path -/

/-- A filter as handed to the adapter by the engine: an exact equality or a
range with optional, possibly inclusive bounds. -/
inductive GFilter where
  | equal (v : Value)
  | range (lo hi : Option Int) (loIncl hiIncl : Bool)
deriving DecidableEq, Repr

/-- A range whose bounds can provably never be satisfied (e.g. the
combination of `x > 10` and `x < 5`). -/
def GFilter.impossible : GFilter → Bool
  | .range (some lo) (some hi) loI hiI =>
    decide (hi < lo) || (decide (lo = hi) && !(loI && hiI))
  | _ => false

/-- Modelled from the spec: the provider query text `build_sql` generates
(its exact shape is irrelevant to every claim; only that translation is a
pure step performed before any network request). -/
def sqlText (bounds : List (String × GFilter)) (order : List (String × Bool))
    (columnMap : Dict String String) (offset : Nat) : String :=
  "SELECT * WHERE " ++
    String.intercalate " AND "
      (bounds.map (fun b => (dictLookup columnMap b.1).getD b.1)) ++
    " ORDER BY " ++ String.intercalate ", " (order.map (fun o => o.1)) ++
    " OFFSET " ++ intStr offset

/-- Modelled from the spec: `build_sql` is imported from `shillelagh.lib`,
which is not part of this repository snapshot (only its caller
`GSheetsAPI.get_data` is).  Per the spec it translates the bounds and the
requested order into the provider's query dialect, accounts for the
header-row offset, and raises `ImpossibleFilterError` — modelled as
`Except.error ()` — when the predicate combination can provably never be
satisfied, e.g. contradictory bounds on one column such as
`x > 10 AND x < 5`. -/
def build_sql (bounds : List (String × GFilter))
    (order : List (String × Bool)) (columnMap : Dict String String)
    (offset : Nat) : Except Unit String :=
  if bounds.any (fun b => b.2.impossible) then .error ()
  else .ok (sqlText bounds order columnMap offset)

/-- One result row zip-mapped against the schema's labels, as in
`get_data`'s dict comprehension; each cell is modelled as its extracted
optional value (`cell["v"] if cell else None`). -/
def zipToRow (labels : List String) (cells : List (Option Value)) : Row :=
  dictOfList (labels.zip cells)

/-- The `for i, row in enumerate(rows)` loop of `get_data`: each row dict is
stored in `row_ids[i]` and then, on that same dict object, `row["rowid"]`
is assigned — so the stored entry carries the identifier key as well. -/
def registerRows : List Row → IdMap → Nat → List Row × IdMap
  | [], m, _ => ([], m)
  | row :: rest, m, i =>
    let rowWithId := dictInsert row "rowid" (some (.int (i : Int)))
    let out := registerRows rest (dictInsert m (i : Int) rowWithId) (i + 1)
    (rowWithId :: out.1, out.2)

/-- `get_data`: translate (an `ImpossibleFilterError` returns immediately),
then query, then zip-map and register every row.  The remote call is the
`runQuery` argument; the first component lists the queries actually
issued. -/
def get_data (labels : List String) (bounds : List (String × GFilter))
    (order : List (String × Bool)) (columnMap : Dict String String)
    (offset : Nat)
    (runQuery : String → Except String (List (List (Option Value))))
    (m : IdMap) : List String × Except String (List Row × IdMap) :=
  match build_sql bounds order columnMap offset with
  | .error () => ([], .ok ([], m))
  | .ok sql =>
    match runQuery sql with
    | .error e => ([sql], .error e)
    | .ok tableRows =>
      let reg := registerRows (tableRows.map (zipToRow labels)) m 0
      ([sql], .ok (reg.1, reg.2))

/-! ## The mutation manager -/

/-- Python `repr` of an optional cell value. -/
def pyReprValue : Option Value → String
  | none => "None"
  | some (.str s) => "\x27" ++ s ++ "\x27"
  | some (.int n) => intStr n
  | some (.bool b) => if b then "True" else "False"

/-- Python `str` of a row dict, as interpolated into error messages. -/
def pyReprRow (r : Row) : String :=
  "\x7b" ++
    String.intercalate ", "
      (r.map (fun p => "\x27" ++ p.1 ++ "\x27: " ++ pyReprValue p.2)) ++
    "\x7d"

/-- `values = [row[column] for column in self.columns]`; a label missing
from the row is an uncaught `KeyError`. -/
def rowValues : List String → Row → Except String (List (Option Value))
  | [], _ => .ok []
  | l :: rest, row =>
    match dictLookup row l with
    | none => .error ("KeyError: \x27" ++ l ++ "\x27")
    | some v => (rowValues rest row).map (fun vs => v :: vs)

/-- The first 0-indexed position whose row equals `vals` exactly. -/
def findFrom (vals : List (Option Value)) :
    List (List (Option Value)) → Option Nat
  | [] => none
  | r :: rest =>
    if r = vals then some 0 else (findFrom vals rest).map (fun i => i + 1)

/-- `_find_row_number`: project the row through the schema's column order,
fetch all raw sheet values (the `valuesResp` argument, one GET request —
an embedded error payload raises), and return the first exact match, else
a `ProgrammingError` naming the row.  Result: (requests issued, outcome). -/
def find_row_number (labels : List String) (row : Row)
    (valuesResp : Except String (List (List (Option Value)))) :
    Nat × Except String Nat :=
  match rowValues labels row with
  | .error e => (0, .error e)
  | .ok vals =>
    match valuesResp with
    | .error e => (1, .error e)
    | .ok pv =>
      (1, match findFrom vals pv with
          | some i => .ok i
          | none => .error ("Could not find row: " ++ pyReprRow row))

def maxFrom (acc : Int) : List Int → Int
  | [] => acc
  | x :: rest => maxFrom (max acc x) rest

/-- `max(self.row_ids.keys()) + 1 if self.row_ids else 0`. -/
def freshRowId (m : IdMap) : Int :=
  match m.map (fun p => p.1) with
  | [] => 0
  | k :: ks => maxFrom k ks + 1

/-- The tail of `insert_data` after the row id is settled: store the entry
optimistically, build the positional value list, POST the append (the
`postResp` argument) and surface any error payload; the local entry remains
either way.  Result: (identity map, requests issued, outcome). -/
def insertStored (labels : List String) (row0 : Row) (m : IdMap)
    (rowId : Int) (postResp : Except String Unit) :
    IdMap × Nat × Except String Int :=
  let m1 := dictInsert m rowId row0
  match rowValues labels row0 with
  | .error e => (m1, 0, .error e)
  | .ok _ =>
    match postResp with
    | .error e => (m1, 1, .error e)
    | .ok () => (m1, 1, .ok rowId)

/-- `insert_data`: pop the caller's `rowid` (a Python `None` means a fresh
identifier is assigned), then store and append. -/
def insert_data (labels : List String) (row : Row) (m : IdMap)
    (postResp : Except String Unit) : IdMap × Nat × Except String Int :=
  match dictPop row "rowid" with
  | none => (m, 0, .error "KeyError: \x27rowid\x27")
  | some (v, row0) =>
    match v with
    | none => insertStored labels row0 m (freshRowId m) postResp
    | some (.int n) => insertStored labels row0 m n postResp
    | some _ => (m, 0, .error "rowid value of unmodelled type")

/-- `delete_data`: an unknown identifier raises before any network call;
otherwise locate the physical row (`valuesResp`, one GET), POST the
structural delete (`delResp`), and drop the local entry only on success.
Result: (identity map, requests issued, outcome). -/
def delete_data (labels : List String) (m : IdMap) (rowId : Int)
    (valuesResp : Except String (List (List (Option Value))))
    (delResp : Except String Unit) : IdMap × Nat × Except String Unit :=
  match dictLookup m rowId with
  | none => (m, 0, .error ("Invalid row to delete: " ++ intStr rowId))
  | some row =>
    let fr := find_row_number labels row valuesResp
    match fr.2 with
    | .error e => (m, fr.1, .error e)
    | .ok _ =>
      match delResp with
      | .error e => (m, fr.1 + 1, .error e)
      | .ok () => (dictDelete m rowId, fr.1 + 1, .ok ())

/-- `update_data`: an unknown identifier raises before any network call;
otherwise locate the current physical row by the previously stored values,
PUT the full value range (`putResp`), then pop `rowid` from the caller's
row and migrate the identity-map key when it changed. -/
def update_data (labels : List String) (m : IdMap) (rowId : Int) (row : Row)
    (valuesResp : Except String (List (List (Option Value))))
    (putResp : Except String Unit) : IdMap × Nat × Except String Unit :=
  match dictLookup m rowId with
  | none => (m, 0, .error ("Invalid row to update: " ++ intStr rowId))
  | some currentRow =>
    let fr := find_row_number labels currentRow valuesResp
    match fr.2 with
    | .error e => (m, fr.1, .error e)
    | .ok _ =>
      match rowValues labels row with
      | .error e => (m, fr.1, .error e)
      | .ok _ =>
        match putResp with
        | .error e => (m, fr.1 + 1, .error e)
        | .ok () =>
          match dictPop row "rowid" with
          | none => (m, fr.1 + 1, .error "KeyError: \x27rowid\x27")
          | some (v, row0) =>
            match v with
            | some (.int newId) =>
              (dictInsert (if newId = rowId then m else dictDelete m rowId)
                newId row0, fr.1 + 1, .ok ())
            | _ => (m, fr.1 + 1, .error "rowid value of unmodelled type")

/-! ## Lemmas about the string helpers -/

theorem dropWhile_append_last (p : Char → Bool) (l : List Char) (a : Char)
    (h : p a = false) :
    (l ++ [a]).dropWhile p = l.dropWhile p ++ [a] := by
  induction l with
  | nil => simp [List.dropWhile, h]
  | cons x xs ih =>
    by_cases hx : p x
    · simp [List.dropWhile_cons, hx, ih]
    · simp [List.dropWhile_cons, hx]

theorem stripTrailing_cons (a : Char) (xs : List Char) (h : isPySpace a = false) :
    stripTrailing (a :: xs) = a :: stripTrailing xs := by
  unfold stripTrailing
  rw [List.reverse_cons, dropWhile_append_last _ _ _ h, List.reverse_append]
  simp

/-- `int(...)` fails on any string whose stripped form starts with `/`. -/
theorem pyIntChars_head_slash (zs : List Char) :
    pyIntChars ('/' :: zs) = none := by
  have h0 : isPySpace '/' = false := by decide
  have h1 : ('/' :: zs).dropWhile isPySpace = '/' :: zs := by
    rw [List.dropWhile_cons, h0]
    simp
  have h2 : stripTrailing ('/' :: zs) = '/' :: stripTrailing zs :=
    stripTrailing_cons _ _ h0
  unfold pyIntChars pyStrip
  rw [h1, h2]
  rfl

theorem splitChar_cons (sep c : Char) (rest : List Char) :
    splitChar sep (c :: rest) =
      if c = sep then [] :: splitChar sep rest
      else
        match splitChar sep rest with
        | [] => [[c]]
        | p :: ps => (c :: p) :: ps := rfl

theorem splitChar_of_not_mem (sep : Char) (cs : List Char) (h : sep ∉ cs) :
    splitChar sep cs = [cs] := by
  induction cs with
  | nil => rfl
  | cons c rest ih =>
    rw [splitChar_cons]
    have hc : ¬ (c = sep) := fun hh => h (hh ▸ List.mem_cons_self c rest)
    rw [if_neg hc, ih (fun hm => h (List.mem_cons_of_mem _ hm))]

theorem digitChar_mod_isDigit (k : Nat) :
    (Nat.digitChar (k % 10)).isDigit = true := by
  have h : k % 10 < 10 := Nat.mod_lt _ (by omega)
  set r := k % 10 with hr
  interval_cases r <;> decide

theorem natCharsAux_digit (fuel : Nat) :
    ∀ n, ∀ c ∈ natCharsAux fuel n, c.isDigit = true := by
  induction fuel with
  | zero => intro n c hc; simp [natCharsAux] at hc
  | succ fuel ih =>
    intro n c hc
    rw [natCharsAux] at hc
    by_cases h : n < 10
    · rw [if_pos h, List.mem_singleton] at hc
      subst hc
      exact digitChar_mod_isDigit n
    · rw [if_neg h, List.mem_append, List.mem_singleton] at hc
      rcases hc with hc | rfl
      · exact ih (n / 10) c hc
      · exact digitChar_mod_isDigit n

theorem natChars_digit (n : Nat) : ∀ c ∈ natChars n, c.isDigit = true :=
  natCharsAux_digit (n + 1) n

theorem comma_not_mem_strftime (v : PyDateTime) : ',' ∉ strftimeChars v := by
  have hd : ∀ k : Nat, ',' ≠ Nat.digitChar (k % 10) := by
    intro k hk
    have h2 := digitChar_mod_isDigit k
    rw [← hk] at h2
    exact absurd h2 (by decide)
  have hy := natChars_digit v.year
  intro h
  simp only [strftimeChars, pad2, List.cons_append, List.nil_append,
    List.mem_cons, List.mem_append] at h
  casesm* _ ∨ _
  all_goals first
    | (exact hd _ (by assumption))
    | (rename_i hh; exact absurd hh (by decide))
    | (rename_i hh; exact absurd (hy _ hh) (by decide))

/-! ## Dictionary lemmas -/

theorem dictLookup_insert {α β : Type} [DecidableEq α] (m : Dict α β)
    (k j : α) (v : β) :
    dictLookup (dictInsert m k v) j =
      if k = j then some v else dictLookup m j := by
  induction m with
  | nil => simp [dictInsert, dictLookup]
  | cons p rest ih =>
    obtain ⟨k0, v0⟩ := p
    by_cases hk : k0 = k
    · subst hk
      by_cases hj : k0 = j <;> simp [dictInsert, dictLookup, hj]
    · by_cases hj : k0 = j
      · subst hj
        have hkj : ¬ (k = k0) := fun hh => hk hh.symm
        simp [dictInsert, dictLookup, hk, hkj]
      · simp [dictInsert, dictLookup, hk, hj, ih]

theorem dictLookup_delete {α β : Type} [DecidableEq α] (m : Dict α β)
    (k j : α) :
    dictLookup (dictDelete m k) j =
      if k = j then none else dictLookup m j := by
  induction m with
  | nil => simp [dictDelete, dictLookup]
  | cons p rest ih =>
    obtain ⟨k0, v0⟩ := p
    by_cases hk : k0 = k
    · subst hk
      by_cases hj : k0 = j
      · subst hj
        simp [dictDelete, dictLookup, ih]
      · simp [dictDelete, dictLookup, hj, ih]
    · by_cases hj : k0 = j
      · subst hj
        have hkj : ¬ (k = k0) := fun hh => hk hh.symm
        simp [dictDelete, dictLookup, hk, hkj]
      · simp [dictDelete, dictLookup, hk, hj, ih]

theorem dictHasKey_delete_self {α β : Type} [DecidableEq α] (m : Dict α β)
    (k : α) : dictHasKey (dictDelete m k) k = false := by
  unfold dictHasKey
  rw [dictLookup_delete]
  simp

theorem lookup_insert_cases {α β : Type} [DecidableEq α] (m : Dict α β)
    (k0 : α) (v0 : β) (k : α) (r : β)
    (h : dictLookup (dictInsert m k0 v0) k = some r) :
    dictLookup m k = some r ∨ r = v0 := by
  rw [dictLookup_insert] at h
  by_cases hk : k0 = k
  · rw [if_pos hk] at h
    right
    exact (Option.some.injEq v0 r ▸ h).symm
  · rw [if_neg hk] at h
    left
    exact h

theorem pop_no_rowid (row : Row) (v : Option Value) (row0 : Row)
    (h : dictPop row "rowid" = some (v, row0)) :
    dictHasKey row0 "rowid" = false := by
  unfold dictPop at h
  cases hl : dictLookup row "rowid" with
  | none => rw [hl] at h; simp at h
  | some w =>
    rw [hl] at h
    simp only [Option.some.injEq, Prod.mk.injEq] at h
    rw [← h.2]
    exact dictHasKey_delete_self row "rowid"

/-! ## Impossible filters never reach the network (C2) -/

/-- C2: whenever the translation step reports an impossible filter
combination, `get_data` yields an empty sequence of rows and issues no
network request; and contradictory bounds on one column (for example
`x > 10 AND x < 5`, a range whose upper bound is below its lower bound)
make the translation report exactly that. -/
theorem impossible_filter_no_request (labels : List String)
    (bounds : List (String × GFilter)) (order : List (String × Bool))
    (columnMap : Dict String String) (offset : Nat)
    (runQuery : String → Except String (List (List (Option Value))))
    (m : IdMap) :
    (build_sql bounds order columnMap offset = .error () →
      get_data labels bounds order columnMap offset runQuery m =
        ([], .ok ([], m))) ∧
    (∀ (col : String) (lo hi : Int) (loI hiI : Bool), hi < lo →
      (col, GFilter.range (some lo) (some hi) loI hiI) ∈ bounds →
      build_sql bounds order columnMap offset = .error ()) := by
  constructor
  · intro h
    simp [get_data, h]
  · intro col lo hi loI hiI hlt hmem
    have hany : bounds.any (fun b => b.2.impossible) = true := by
      rw [List.any_eq_true]
      exact ⟨_, hmem, by simp [GFilter.impossible, hlt]⟩
    simp [build_sql, hany]

/-- Witness for `impossible_filter_no_request`: contradictory bounds
`x > 10 AND x < 5` yield zero rows and an empty request log. -/
theorem impossible_filter_no_request_witness :
    get_data ["a"] [("x", GFilter.range (some 10) (some 5) false false)] []
      [] 0 (fun _ => .ok [[some (Value.str "x")]]) [] = ([], .ok ([], [])) := by
  have h := impossible_filter_no_request ["a"]
    [("x", GFilter.range (some 10) (some 5) false false)] [] [] 0
    (fun _ => .ok [[some (Value.str "x")]]) []
  exact h.1 (h.2 "x" 10 5 false false (by decide) (by simp))

/-! ## The identity map and the reserved `rowid` key (C8) -/

theorem insertStored_fst (labels : List String) (row0 : Row) (m : IdMap)
    (rowId : Int) (postResp : Except String Unit) :
    (insertStored labels row0 m rowId postResp).1 = dictInsert m rowId row0 := by
  unfold insertStored
  cases rowValues labels row0 with
  | error e => rfl
  | ok vs => cases postResp <;> rfl

theorem registerRows_lookup : ∀ (rows : List Row) (m : IdMap) (i : Nat)
    (k : Int) (r : Row),
    dictLookup (registerRows rows m i).2 k = some r →
    dictLookup m k = some r ∨ dictHasKey r "rowid" = true := by
  intro rows
  induction rows with
  | nil =>
    intro m i k r h
    simp only [registerRows] at h
    left
    exact h
  | cons row rest ih =>
    intro m i k r h
    simp only [registerRows] at h
    rcases ih _ _ _ _ h with h2 | h2
    · rcases lookup_insert_cases _ _ _ _ _ h2 with h3 | h3
      · left
        exact h3
      · right
        subst h3
        unfold dictHasKey
        rw [dictLookup_insert]
        simp
    · right
      exact h2

/-- C8 counterexample: after a fetch of one row, the identity-map entry for
identifier 0 contains the reserved `rowid` key — the stored dict is the
same object as the yielded row, and the identifier key is assigned to it
right after it is stored. -/
theorem row_ids_rowid_cex :
    (get_data ["a"] [] [] [] 0 (fun _ => .ok [[some (Value.str "x")]]) []).2 =
      .ok ([[("a", some (Value.str "x")), ("rowid", some (Value.int 0))]],
        [((0 : Int),
          [("a", some (Value.str "x")), ("rowid", some (Value.int 0))])]) ∧
    dictHasKey
      [("a", some (Value.str "x")), ("rowid", some (Value.int 0))]
      "rowid" = true :=
  ⟨by decide, by decide⟩

/-- C8 (amended): rows stored in the row identity map by `insert_data` and
`update_data` exclude the reserved `rowid` key (it is popped before the row
is stored), but rows newly stored by `get_data` include it: the stored dict
is the yielded row object, which is given its `rowid` key right after being
stored. -/
theorem row_ids_rowid_amended :
    (∀ labels row m postResp k r,
      dictLookup (insert_data labels row m postResp).1 k = some r →
      dictLookup m k = some r ∨ dictHasKey r "rowid" = false) ∧
    (∀ labels m rowId row valuesResp putResp k r,
      dictLookup (update_data labels m rowId row valuesResp putResp).1 k =
        some r →
      dictLookup m k = some r ∨ dictHasKey r "rowid" = false) ∧
    (∀ labels bounds order columnMap offset runQuery m out m2 k r,
      (get_data labels bounds order columnMap offset runQuery m).2 =
        .ok (out, m2) →
      dictLookup m2 k = some r →
      dictLookup m k = some r ∨ dictHasKey r "rowid" = true) := by
  refine ⟨?_, ?_, ?_⟩
  · intro labels row m postResp k r h
    cases hp : dictPop row "rowid" with
    | none =>
      simp only [insert_data, hp] at h
      left
      exact h
    | some p =>
      obtain ⟨v, row0⟩ := p
      have hfree : dictHasKey row0 "rowid" = false := pop_no_rowid _ _ _ hp
      cases v with
      | none =>
        simp only [insert_data, hp, insertStored_fst] at h
        rcases lookup_insert_cases _ _ _ _ _ h with h2 | h2
        · left; exact h2
        · right; rw [h2]; exact hfree
      | some val =>
        cases val with
        | str s =>
          simp only [insert_data, hp] at h
          left
          exact h
        | bool b =>
          simp only [insert_data, hp] at h
          left
          exact h
        | int n =>
          simp only [insert_data, hp, insertStored_fst] at h
          rcases lookup_insert_cases _ _ _ _ _ h with h2 | h2
          · left; exact h2
          · right; rw [h2]; exact hfree
  · intro labels m rowId row valuesResp putResp k r h
    cases hl : dictLookup m rowId with
    | none =>
      simp only [update_data, hl] at h
      left
      exact h
    | some currentRow =>
      cases hfr : (find_row_number labels currentRow valuesResp).2 with
      | error e =>
        simp only [update_data, hl, hfr] at h
        left
        exact h
      | ok rn =>
        cases hrv : rowValues labels row with
        | error e =>
          simp only [update_data, hl, hfr, hrv] at h
          left
          exact h
        | ok vs =>
          cases hput : putResp with
          | error e =>
            simp only [update_data, hl, hfr, hrv, hput] at h
            left
            exact h
          | ok u =>
            cases u
            cases hp : dictPop row "rowid" with
            | none =>
              simp only [update_data, hl, hfr, hrv, hput, hp] at h
              left
              exact h
            | some p =>
              obtain ⟨v, row0⟩ := p
              have hfree : dictHasKey row0 "rowid" = false :=
                pop_no_rowid _ _ _ hp
              cases v with
              | none =>
                simp only [update_data, hl, hfr, hrv, hput, hp] at h
                left
                exact h
              | some val =>
                cases val with
                | str s =>
                  simp only [update_data, hl, hfr, hrv, hput, hp] at h
                  left
                  exact h
                | bool b =>
                  simp only [update_data, hl, hfr, hrv, hput, hp] at h
                  left
                  exact h
                | int newId =>
                  simp only [update_data, hl, hfr, hrv, hput, hp] at h
                  rcases lookup_insert_cases _ _ _ _ _ h with h2 | h2
                  · by_cases hn : newId = rowId
                    · rw [if_pos hn] at h2
                      left
                      exact h2
                    · rw [if_neg hn, dictLookup_delete] at h2
                      by_cases hkk : rowId = k
                      · rw [if_pos hkk] at h2
                        exact absurd h2 (by simp)
                      · rw [if_neg hkk] at h2
                        left
                        exact h2
                  · right
                    rw [h2]
                    exact hfree
  · intro labels bounds order columnMap offset runQuery m out m2 k r hok h
    cases hb : build_sql bounds order columnMap offset with
    | error e =>
      cases e
      simp only [get_data, hb, Except.ok.injEq, Prod.mk.injEq] at hok
      rw [← hok.2] at h
      left
      exact h
    | ok sql =>
      cases hq : runQuery sql with
      | error e =>
        simp only [get_data, hb, hq] at hok
        exact Except.noConfusion hok
      | ok tableRows =>
        simp only [get_data, hb, hq, Except.ok.injEq, Prod.mk.injEq] at hok
        rw [← hok.2] at h
        exact registerRows_lookup _ _ _ _ _ h

/-- Witness for `row_ids_rowid_amended`: one insert into an empty map and
one fetch into a one-entry map, at concrete values. -/
theorem row_ids_rowid_amended_witness :
    (dictLookup ([] : IdMap) (0 : Int) = some [("a", some (Value.str "x"))] ∨
      dictHasKey [("a", some (Value.str "x"))] "rowid" = false) ∧
    (dictLookup ([((5 : Int), [("a", some (Value.str "p"))])] : IdMap)
        (0 : Int) =
        some [("a", some (Value.str "x")), ("rowid", some (Value.int 0))] ∨
      dictHasKey
        [("a", some (Value.str "x")), ("rowid", some (Value.int 0))]
        "rowid" = true) := by
  constructor
  · exact row_ids_rowid_amended.1 ["a"]
      [("rowid", none), ("a", some (Value.str "x"))] [] (.ok ()) 0
      [("a", some (Value.str "x"))] (by decide)
  · exact row_ids_rowid_amended.2.2 ["a"] [] [] [] 0
      (fun _ => .ok [[some (Value.str "x")]])
      [((5 : Int), [("a", some (Value.str "p"))])]
      [[("a", some (Value.str "x")), ("rowid", some (Value.int 0))]]
      [((5 : Int), [("a", some (Value.str "p"))]),
        ((0 : Int),
          [("a", some (Value.str "x")), ("rowid", some (Value.int 0))])]
      0 [("a", some (Value.str "x")), ("rowid", some (Value.int 0))]
      (by decide) (by decide)

/-! ## Fresh identifier assignment (C6) -/

theorem maxFrom_ge_acc (l : List Int) : ∀ acc : Int, acc ≤ maxFrom acc l := by
  induction l with
  | nil => intro acc; simp [maxFrom]
  | cons x rest ih =>
    intro acc
    calc acc ≤ max acc x := le_max_left acc x
      _ ≤ maxFrom (max acc x) rest := ih (max acc x)
      _ = maxFrom acc (x :: rest) := rfl

theorem maxFrom_ge_mem (l : List Int) :
    ∀ (acc x : Int), x ∈ l → x ≤ maxFrom acc l := by
  induction l with
  | nil => intro acc x hx; simp at hx
  | cons y rest ih =>
    intro acc x hx
    rcases List.mem_cons.mp hx with rfl | hx2
    · calc x ≤ max acc x := le_max_right acc x
        _ ≤ maxFrom (max acc x) rest := maxFrom_ge_acc rest (max acc x)
    · exact ih (max acc y) x hx2

theorem maxFrom_mem_or_acc (l : List Int) :
    ∀ acc : Int, maxFrom acc l = acc ∨ maxFrom acc l ∈ l := by
  induction l with
  | nil => intro acc; left; rfl
  | cons x rest ih =>
    intro acc
    rcases ih (max acc x) with h | h
    · rcases max_cases acc x with ⟨hm, _⟩ | ⟨hm, _⟩
      · left
        show maxFrom (max acc x) rest = acc
        rw [h, hm]
      · right
        show maxFrom (max acc x) rest ∈ x :: rest
        rw [h, hm]
        exact List.mem_cons_self x rest
    · right
      exact List.mem_cons_of_mem x h

theorem freshRowId_spec (m : IdMap) :
    (m = [] → freshRowId m = 0) ∧
    (m ≠ [] → (freshRowId m - 1) ∈ m.map (fun p => p.1) ∧
      ∀ k ∈ m.map (fun p => p.1), k < freshRowId m) := by
  constructor
  · intro h
    subst h
    rfl
  · intro hne
    cases m with
    | nil => exact absurd rfl hne
    | cons p rest =>
      have hfr : freshRowId (p :: rest) =
          maxFrom p.1 (rest.map (fun q => q.1)) + 1 := rfl
      constructor
      · rw [hfr]
        simp only [add_sub_cancel_right]
        rcases maxFrom_mem_or_acc (rest.map (fun q => q.1)) p.1 with h | h
        · rw [h]
          simp
        · simp only [List.map_cons, List.mem_cons]
          right
          exact h
      · intro k hk
        rw [hfr]
        simp only [List.map_cons, List.mem_cons] at hk
        rcases hk with rfl | hk2
        · have := maxFrom_ge_acc (rest.map (fun q => q.1)) p.1
          omega
        · have := maxFrom_ge_mem (rest.map (fun q => q.1)) p.1 k hk2
          omega

/-- C6: when the caller supplies no row identifier (`rowid` maps to a
Python `None`), `insert_data` assigns `max(keys) + 1` — an identifier one
above every identifier in the map, with its predecessor present — or 0 when
the map is empty. -/
theorem insert_data_fresh_id (labels : List String) (row : Row) (m : IdMap)
    (row0 : Row) (vs : List (Option Value))
    (hpop : dictPop row "rowid" = some (none, row0))
    (hvals : rowValues labels row0 = .ok vs) :
    insert_data labels row m (.ok ()) =
      (dictInsert m (freshRowId m) row0, 1, .ok (freshRowId m)) ∧
    (m = [] → freshRowId m = 0) ∧
    (m ≠ [] → (freshRowId m - 1) ∈ m.map (fun p => p.1) ∧
      ∀ k ∈ m.map (fun p => p.1), k < freshRowId m) := by
  refine ⟨?_, (freshRowId_spec m).1, (freshRowId_spec m).2⟩
  simp only [insert_data, hpop, insertStored, hvals]

/-- Witness for `insert_data_fresh_id`: with identifiers 0, 1, 2 mapped and
no identifier supplied, the new identifier is 3. -/
theorem insert_data_fresh_id_witness :
    insert_data ["a"] [("rowid", none), ("a", some (Value.str "x"))]
      [((0 : Int), [("a", some (Value.str "p"))]),
        ((1 : Int), [("a", some (Value.str "q"))]),
        ((2 : Int), [("a", some (Value.str "r"))])]
      (.ok ()) =
      ([((0 : Int), [("a", some (Value.str "p"))]),
        ((1 : Int), [("a", some (Value.str "q"))]),
        ((2 : Int), [("a", some (Value.str "r"))]),
        ((3 : Int), [("a", some (Value.str "x"))])],
        1, .ok 3) := by
  have h := (insert_data_fresh_id ["a"]
    [("rowid", none), ("a", some (Value.str "x"))]
    [((0 : Int), [("a", some (Value.str "p"))]),
      ((1 : Int), [("a", some (Value.str "q"))]),
      ((2 : Int), [("a", some (Value.str "r"))])]
    [("a", some (Value.str "x"))] [some (Value.str "x")]
    (by decide) (by decide)).1
  exact h.trans (by decide)

/-! ## Locate-by-value (C7) -/

theorem findFrom_some (vals : List (Option Value)) :
    ∀ (l : List (List (Option Value))) (i : Nat), findFrom vals l = some i →
      l.get? i = some vals ∧ ∀ j < i, l.get? j ≠ some vals := by
  intro l
  induction l with
  | nil => intro i h; simp [findFrom] at h
  | cons r rest ih =>
    intro i h
    rw [findFrom] at h
    by_cases hr : r = vals
    · rw [if_pos hr] at h
      have : i = 0 := by simpa using h.symm
      subst this
      refine ⟨by simp [hr], ?_⟩
      intro j hj
      omega
    · rw [if_neg hr] at h
      cases hff : findFrom vals rest with
      | none => rw [hff] at h; simp at h
      | some i0 =>
        rw [hff] at h
        simp at h
        subst h
        obtain ⟨h1, h2⟩ := ih i0 hff
        refine ⟨by simpa using h1, ?_⟩
        intro j hj
        cases j with
        | zero => simpa using hr
        | succ j0 =>
          have : j0 < i0 := by omega
          simpa using h2 j0 this

theorem findFrom_none (vals : List (Option Value)) :
    ∀ l : List (List (Option Value)), findFrom vals l = none →
      ∀ j, l.get? j ≠ some vals := by
  intro l
  induction l with
  | nil => intro _ j; simp
  | cons r rest ih =>
    intro h j
    rw [findFrom] at h
    by_cases hr : r = vals
    · rw [if_pos hr] at h; simp at h
    · rw [if_neg hr] at h
      cases j with
      | zero => simpa using hr
      | succ j0 =>
        have hrest : findFrom vals rest = none := by
          cases hff : findFrom vals rest with
          | none => rfl
          | some i0 => rw [hff] at h; simp at h
        simpa using ih hrest j0

/-- C7: `_find_row_number` returns the 0-indexed position of the first
remote row whose value sequence equals the last-known value tuple exactly;
when no remote row matches, it fails with a `ProgrammingError` whose
message names the row. -/
theorem find_row_number_first_match (labels : List String) (row : Row)
    (vals : List (Option Value)) (pv : List (List (Option Value)))
    (hvals : rowValues labels row = .ok vals) :
    (∀ i, (find_row_number labels row (.ok pv)).2 = .ok i →
      pv.get? i = some vals ∧ ∀ j < i, pv.get? j ≠ some vals) ∧
    ((∃ j, pv.get? j = some vals) →
      ∃ i, (find_row_number labels row (.ok pv)).2 = .ok i) ∧
    ((∀ j, pv.get? j ≠ some vals) →
      (find_row_number labels row (.ok pv)).2 =
        .error ("Could not find row: " ++ pyReprRow row)) := by
  refine ⟨?_, ?_, ?_⟩
  · intro i h
    simp only [find_row_number, hvals] at h
    cases hff : findFrom vals pv with
    | none => rw [hff] at h; simp at h
    | some i0 =>
      rw [hff] at h
      simp only [Except.ok.injEq] at h
      subst h
      exact findFrom_some vals pv i0 hff
  · intro hex
    obtain ⟨j, hj⟩ := hex
    cases hff : findFrom vals pv with
    | none => exact absurd hj (findFrom_none vals pv hff j)
    | some i0 =>
      refine ⟨i0, ?_⟩
      simp only [find_row_number, hvals, hff]
  · intro hnone
    cases hff : findFrom vals pv with
    | some i0 =>
      have := (findFrom_some vals pv i0 hff).1
      exact absurd this (hnone i0)
    | none =>
      simp only [find_row_number, hvals, hff]

/-- Witness for `find_row_number_first_match`: a two-row fetch whose second
row matches, and a one-row fetch with no match. -/
theorem find_row_number_first_match_witness :
    (([[some (Value.str "y")], [some (Value.str "x")]] :
        List (List (Option Value))).get? 1 = some [some (Value.str "x")] ∧
      ∀ j < 1, ([[some (Value.str "y")], [some (Value.str "x")]] :
        List (List (Option Value))).get? j ≠ some [some (Value.str "x")]) ∧
    (find_row_number ["a"] [("a", some (Value.str "x"))]
      (.ok [[some (Value.str "y")]])).2 =
      .error "Could not find row: \x7b\x27a\x27: \x27x\x27\x7d" := by
  constructor
  · exact (find_row_number_first_match ["a"] [("a", some (Value.str "x"))]
      [some (Value.str "x")] [[some (Value.str "y")], [some (Value.str "x")]]
      (by decide)).1 1 (by decide)
  · have h := (find_row_number_first_match ["a"]
      [("a", some (Value.str "x"))] [some (Value.str "x")]
      [[some (Value.str "y")]] (by decide)).2.2
      (by
        intro j
        cases j with
        | zero => decide
        | succ j0 => simp [List.get?])
    exact h.trans (by decide)

/-! ## Delete and the identity map (C5) -/

/-- C5: `delete_data` with an identifier absent from the identity map fails
without issuing any network call and leaves the map unchanged; with a
present identifier, the local entry is removed exactly when the remote
delete reports success, so on any error the map is unchanged. -/
theorem delete_data_identity_map (labels : List String) (m : IdMap)
    (rowId : Int) (valuesResp : Except String (List (List (Option Value))))
    (delResp : Except String Unit) :
    (dictLookup m rowId = none →
      delete_data labels m rowId valuesResp delResp =
        (m, 0, .error ("Invalid row to delete: " ++ intStr rowId))) ∧
    (∀ e, (delete_data labels m rowId valuesResp delResp).2.2 = .error e →
      (delete_data labels m rowId valuesResp delResp).1 = m) ∧
    ((delete_data labels m rowId valuesResp delResp).2.2 = .ok () →
      (delete_data labels m rowId valuesResp delResp).1 =
        dictDelete m rowId ∧
      dictLookup (delete_data labels m rowId valuesResp delResp).1 rowId =
        none) := by
  refine ⟨?_, ?_, ?_⟩
  · intro h
    simp [delete_data, h]
  · intro e
    cases hl : dictLookup m rowId with
    | none =>
      intro _
      simp [delete_data, hl]
    | some row =>
      cases hfr : (find_row_number labels row valuesResp).2 with
      | error e2 =>
        intro _
        simp [delete_data, hl, hfr]
      | ok rn =>
        cases hd : delResp with
        | error e2 =>
          intro _
          simp [delete_data, hl, hfr, hd]
        | ok u =>
          cases u
          intro hcontra
          simp [delete_data, hl, hfr, hd] at hcontra
  · cases hl : dictLookup m rowId with
    | none =>
      intro hcontra
      simp [delete_data, hl] at hcontra
    | some row =>
      cases hfr : (find_row_number labels row valuesResp).2 with
      | error e2 =>
        intro hcontra
        simp [delete_data, hl, hfr] at hcontra
      | ok rn =>
        cases hd : delResp with
        | error e2 =>
          intro hcontra
          simp [delete_data, hl, hfr, hd] at hcontra
        | ok u =>
          cases u
          intro _
          constructor
          · simp [delete_data, hl, hfr, hd]
          · simp [delete_data, hl, hfr, hd, dictLookup_delete]

/-- Witness for `delete_data_identity_map`: an absent identifier fails with
no request and an unchanged map; a present identifier is removed on a
successful remote delete. -/
theorem delete_data_identity_map_witness :
    delete_data ["a"] [((0 : Int), [("a", some (Value.str "x"))])] 5
      (.ok [[some (Value.str "x")]]) (.ok ()) =
      ([((0 : Int), [("a", some (Value.str "x"))])], 0,
        .error "Invalid row to delete: 5") ∧
    (delete_data ["a"] [((0 : Int), [("a", some (Value.str "x"))])] 0
      (.ok [[some (Value.str "x")]]) (.ok ())).1 =
      dictDelete [((0 : Int), [("a", some (Value.str "x"))])] 0 := by
  constructor
  · exact (delete_data_identity_map ["a"]
      [((0 : Int), [("a", some (Value.str "x"))])] 5
      (.ok [[some (Value.str "x")]]) (.ok ())).1 (by decide)
  · exact ((delete_data_identity_map ["a"]
      [((0 : Int), [("a", some (Value.str "x"))])] 0
      (.ok [[some (Value.str "x")]]) (.ok ())).2.2 (by decide)).1

/-! ## Schema resolution lemmas (C4, C9) -/

theorem relabelZip_nilR (cols : List Col) : relabelZip cols [] = cols := by
  simp [relabelZip]

theorem relabelZip_cons (c : Col) (cs : List Col) (s : String)
    (ss : List String) :
    relabelZip (c :: cs) (s :: ss) =
      { c with label := s } :: relabelZip cs ss := by
  simp [relabelZip]

theorem relabelZip_get (cols : List Col) (strs : List String) :
    ∀ i : Nat, (relabelZip cols strs).get? i =
      match cols.get? i, strs.get? i with
      | some c, some s => some { c with label := s }
      | some c, none => some c
      | none, _ => none := by
  induction cols generalizing strs with
  | nil =>
    intro i
    simp [relabelZip]
  | cons c cs ih =>
    intro i
    cases strs with
    | nil =>
      rw [relabelZip_nilR]
      cases i with
      | zero => rfl
      | succ i0 =>
        simp only [List.get?_cons_succ, List.get?_nil]
        cases cs.get? i0 <;> rfl
    | cons s ss =>
      rw [relabelZip_cons]
      cases i with
      | zero => rfl
      | succ i0 => simpa using ih ss i0

theorem relabelFromRow_strs :
    ∀ (cols : List Col) (cells : List (Option Value)) (strs : List String),
      cellsAsStrs cells = some strs →
      relabelFromRow cols cells = .ok (relabelZip cols strs) := by
  intro cols
  induction cols with
  | nil =>
    intro cells strs h
    simp [relabelFromRow, relabelZip]
  | cons c cs ih =>
    intro cells strs h
    cases cells with
    | nil =>
      simp only [cellsAsStrs, Option.some.injEq] at h
      subst h
      rw [relabelZip_nilR]
      rfl
    | cons v vs =>
      cases v with
      | none => simp [cellsAsStrs] at h
      | some val =>
        cases val with
        | str s =>
          simp only [cellsAsStrs] at h
          cases hcs : cellsAsStrs vs with
          | none => rw [hcs] at h; simp at h
          | some strs0 =>
            rw [hcs] at h
            simp at h
            rw [← h, relabelZip_cons]
            simp [relabelFromRow, cellStr, ih vs strs0 hcs, Bind.bind,
              Except.bind, pure, Except.pure]
        | int n => simp [cellsAsStrs] at h
        | bool b => simp [cellsAsStrs] at h

theorem foldlInsert_lookup_eq {α β : Type} [DecidableEq α] (k : α) :
    ∀ (l : List (α × β)) (m : Dict α β), (∀ p ∈ l, p.1 ≠ k) →
      dictLookup (l.foldl (fun m2 q => dictInsert m2 q.1 q.2) m) k =
        dictLookup m k := by
  intro l
  induction l with
  | nil => intro m _; rfl
  | cons p rest ih =>
    intro m hall
    rw [List.foldl_cons,
      ih (dictInsert m p.1 p.2) (fun q hq => hall q (List.mem_cons_of_mem _ hq)),
      dictLookup_insert, if_neg (hall p (List.mem_cons_self p rest))]

theorem dictOfList_lookup_none {α β : Type} [DecidableEq α]
    (l : List (α × β)) (k : α) (hall : ∀ p ∈ l, p.1 ≠ k) :
    dictLookup (dictOfList l) k = none := by
  have h := foldlInsert_lookup_eq k l [] hall
  simpa [dictOfList] using h

theorem foldlInsert_lookup_mem {α β : Type} [DecidableEq α] (k : α) :
    ∀ (l : List (α × β)) (m : Dict α β), (∃ p ∈ l, p.1 = k) →
      ∃ p ∈ l, p.1 = k ∧
        dictLookup (l.foldl (fun m2 q => dictInsert m2 q.1 q.2) m) k =
          some p.2 := by
  intro l
  induction l with
  | nil =>
    intro m h
    simp at h
  | cons p rest ih =>
    intro m hex
    rw [List.foldl_cons]
    by_cases hrest : ∃ q ∈ rest, q.1 = k
    · obtain ⟨q, hq1, hq2, hq3⟩ := ih (dictInsert m p.1 p.2) hrest
      exact ⟨q, List.mem_cons_of_mem _ hq1, hq2, hq3⟩
    · have hp : p.1 = k := by
        obtain ⟨q, hq, hqk⟩ := hex
        rcases List.mem_cons.mp hq with rfl | hq2
        · exact hqk
        · exact absurd ⟨q, hq2, hqk⟩ hrest
      refine ⟨p, List.mem_cons_self p rest, hp, ?_⟩
      have hnone : ∀ q ∈ rest, q.1 ≠ k := by
        intro q hq hqk
        exact hrest ⟨q, hq, hqk⟩
      rw [foldlInsert_lookup_eq k rest (dictInsert m p.1 p.2) hnone,
        dictLookup_insert, if_pos hp]

theorem dictOfList_lookup_mem {α β : Type} [DecidableEq α]
    (l : List (α × β)) (k : α) (hex : ∃ p ∈ l, p.1 = k) :
    ∃ p ∈ l, p.1 = k ∧ dictLookup (dictOfList l) k = some p.2 :=
  foldlInsert_lookup_mem k l [] hex

/-- C4: during schema resolution, when every returned column label is empty
and a first data row exists, that row's (string) cell values become the
column labels of the zipped columns and the data-row offset becomes 1; when
every label is empty and there are no rows, each column's provider id
becomes its label and the offset stays 0. -/
theorem set_columns_empty_labels (cols : List Col)
    (cells : List (Option Value)) (rest : List (List (Option Value)))
    (strs : List String)
    (hall : cols.all (fun c => c.label == "") = true)
    (hcells : cellsAsStrs cells = some strs) :
    set_columns cols [] =
      .ok (0, columnMapOf (cols.map (fun c => { c with label := c.id })),
        columnsOf (cols.map (fun c => { c with label := c.id }))) ∧
    set_columns cols (cells :: rest) =
      .ok (1, columnMapOf (relabelZip cols strs),
        columnsOf (relabelZip cols strs)) ∧
    (∀ i : Nat, (relabelZip cols strs).get? i =
      match cols.get? i, strs.get? i with
      | some c, some s => some { c with label := s }
      | some c, none => some c
      | none, _ => none) := by
  refine ⟨?_, ?_, relabelZip_get cols strs⟩
  · simp [set_columns, hall, pure, Except.pure]
  · simp [set_columns, hall, relabelFromRow_strs cols cells strs hcells,
      Bind.bind, Except.bind, pure, Except.pure]

/-- Witness for `set_columns_empty_labels`: two empty-labelled columns, with
and without a first data row. -/
theorem set_columns_empty_labels_witness :
    set_columns [⟨"A", "", "string"⟩, ⟨"B", "", "number"⟩]
      [[some (Value.str "name"), some (Value.str "cnt")]] =
      .ok (1, [("name", "A"), ("cnt", "B")],
        [("name", FieldKind.string), ("cnt", FieldKind.number)]) ∧
    set_columns [⟨"A", "", "string"⟩, ⟨"B", "", "number"⟩] [] =
      .ok (0, [("A", "A"), ("B", "B")],
        [("A", FieldKind.string), ("B", FieldKind.number)]) := by
  have h := set_columns_empty_labels
    [⟨"A", "", "string"⟩, ⟨"B", "", "number"⟩]
    [some (Value.str "name"), some (Value.str "cnt")] []
    ["name", "cnt"] (by decide) (by decide)
  exact ⟨h.2.1.trans (by decide), h.1.trans (by decide)⟩

/-- C9: column labels are trimmed; every column whose trimmed label is empty
is excluded from the exposed schema but keeps an entry under its trimmed
label in the label-to-provider-id map (the entry carries the id of the last
column with that trimmed label, as Python dict comprehensions do), and
schema resolution succeeds on such sparse sheets (here stated whenever not
every raw label is empty, so the relabelling branch is not taken). -/
theorem set_columns_empty_trimmed (cols : List Col)
    (hnotall : cols.all (fun c => c.label == "") = false) :
    (∀ rows, set_columns cols rows =
      .ok (0, columnMapOf cols, columnsOf cols)) ∧
    dictLookup (columnsOf cols) "" = none ∧
    (∀ c ∈ cols, ∃ c2 ∈ cols, pyStripStr c2.label = pyStripStr c.label ∧
      dictLookup (columnMapOf cols) (pyStripStr c.label) = some c2.id) := by
  refine ⟨?_, ?_, ?_⟩
  · intro rows
    simp [set_columns, hnotall, pure, Except.pure]
  · apply dictOfList_lookup_none
    intro p hp
    simp only [List.mem_map, List.mem_filter] at hp
    obtain ⟨c, ⟨hc1, hc2⟩, hc3⟩ := hp
    rw [← hc3]
    simpa using hc2
  · intro c hc
    have hex : ∃ p ∈ cols.map (fun c2 => (pyStripStr c2.label, c2.id)),
        p.1 = pyStripStr c.label :=
      ⟨(pyStripStr c.label, c.id), List.mem_map_of_mem _ hc, rfl⟩
    obtain ⟨p, hp1, hp2, hp3⟩ :=
      dictOfList_lookup_mem (cols.map (fun c2 => (pyStripStr c2.label, c2.id)))
        (pyStripStr c.label) hex
    simp only [List.mem_map] at hp1
    obtain ⟨c2, hc2, hcp⟩ := hp1
    refine ⟨c2, hc2, ?_, ?_⟩
    · rw [← hp2, ← hcp]
    · rw [← hcp] at hp3
      exact hp3

/-- Witness for `set_columns_empty_trimmed`: a sheet with one labelled and
one whitespace-labelled column resolves with the whitespace column excluded
from the schema yet present in the id map. -/
theorem set_columns_empty_trimmed_witness :
    set_columns [⟨"A", " name ", "string"⟩, ⟨"B", "  ", "number"⟩]
      [[some (Value.str "zz")]] =
      .ok (0, [("name", "A"), ("", "B")], [("name", FieldKind.string)]) ∧
    dictLookup
      (columnsOf [⟨"A", " name ", "string"⟩, ⟨"B", "  ", "number"⟩]) "" =
      none := by
  have h := set_columns_empty_trimmed
    [⟨"A", " name ", "string"⟩, ⟨"B", "  ", "number"⟩] (by decide)
  exact ⟨(h.1 [[some (Value.str "zz")]]).trans (by decide), h.2.1⟩

/-! ## The datetime round trip (C1) -/

theorem parse_some (tz : Option Int) (v : String) :
    GSheetsDateTime.parse tz (some v) =
      match mapIntAll (splitChar ',' ((v.data.drop 5).dropLast)) with
      | none => .error "ValueError"
      | some [] => .error "IndexError"
      | some [_] => .error "IndexError"
      | some (y :: m :: rest) =>
        (mkDatetime (y :: (m + 1) :: rest) tz).map some := rfl

theorem drop5_dropLast (a b c d : Char) (t : List Char) (ht : t ≠ []) :
    ((a :: b :: '/' :: c :: d :: '/' :: t).drop 5).dropLast =
      '/' :: t.dropLast := by
  cases t with
  | nil => exact absurd rfl ht
  | cons x xs => rfl

theorem format_ok_shape (tz : Option Int) (v : PyDateTime) (s : String)
    (h : GSheetsDateTime.format tz (some v) = .ok (some s)) :
    ∃ w : PyDateTime, s = String.mk (strftimeChars w) := by
  cases tz with
  | none =>
    refine ⟨v, ?_⟩
    simp only [GSheetsDateTime.format, Except.ok.injEq, Option.some.injEq] at h
    exact h.symm
  | some t =>
    cases hA : astimezone t v with
    | error e =>
      rw [GSheetsDateTime.format, hA] at h
      simp [Except.map] at h
    | ok w =>
      refine ⟨w, ?_⟩
      rw [GSheetsDateTime.format, hA] at h
      simp only [Except.map, Except.ok.injEq, Option.some.injEq] at h
      exact h.symm

/-- C1 (amended): formatting a DateTime value through a fixed sheet timezone
and then parsing the result never yields the original value: whenever
`format` succeeds, `parse` rejects its output with a `ValueError`, because
`parse` consumes the provider's `Date(y,m0,d,...)` wire serialization while
`format` emits `%m/%d/%Y %H:%M:%S` text. -/
theorem format_then_parse_fails (tz : Option Int) (v : PyDateTime) (s : String)
    (h : GSheetsDateTime.format tz (some v) = .ok (some s)) :
    GSheetsDateTime.parse tz (some s) = .error "ValueError" := by
  obtain ⟨w, rfl⟩ := format_ok_shape tz v s h
  rw [parse_some]
  have hdata : (String.mk (strftimeChars w)).data = strftimeChars w := rfl
  rw [hdata]
  have hs : strftimeChars w =
      Nat.digitChar (w.month / 10 % 10) :: Nat.digitChar (w.month % 10) ::
      '/' :: Nat.digitChar (w.day / 10 % 10) :: Nat.digitChar (w.day % 10) ::
      '/' :: (natChars w.year ++ ' ' :: pad2 w.hour ++ ':' :: pad2 w.minute ++
        ':' :: pad2 w.second) := by
    simp [strftimeChars, pad2]
  have htailne : (natChars w.year ++ ' ' :: pad2 w.hour ++ ':' :: pad2 w.minute
      ++ ':' :: pad2 w.second) ≠ [] := by
    simp
  have hdrop : ((strftimeChars w).drop 5).dropLast =
      '/' :: (natChars w.year ++ ' ' :: pad2 w.hour ++ ':' :: pad2 w.minute ++
        ':' :: pad2 w.second).dropLast := by
    rw [hs]
    exact drop5_dropLast _ _ _ _ _ htailne
  rw [hdrop]
  have h2 : ',' ∉ ('/' :: (natChars w.year ++ ' ' :: pad2 w.hour ++
      ':' :: pad2 w.minute ++ ':' :: pad2 w.second).dropLast) := by
    intro hmem
    rcases List.mem_cons.mp hmem with hh | hh
    · exact absurd hh (by decide)
    · have h3 : ',' ∈ (natChars w.year ++ ' ' :: pad2 w.hour ++
          ':' :: pad2 w.minute ++ ':' :: pad2 w.second) :=
        (List.dropLast_sublist _).subset hh
      have h4 : ',' ∈ strftimeChars w := by
        rw [hs]
        simp only [List.mem_cons]
        right; right; right; right; right; right
        exact h3
      exact comma_not_mem_strftime w h4
  rw [splitChar_of_not_mem _ _ h2]
  have h5 : pyIntChars ('/' :: (natChars w.year ++ ' ' :: pad2 w.hour ++
      ':' :: pad2 w.minute ++ ':' :: pad2 w.second).dropLast) = none :=
    pyIntChars_head_slash _
  have h6 : mapIntAll ['/' :: (natChars w.year ++ ' ' :: pad2 w.hour ++
      ':' :: pad2 w.minute ++ ':' :: pad2 w.second).dropLast] = none := by
    simp only [mapIntAll, h5]
  rw [h6]

/-- C1 counterexample: at a concrete aware value and a fixed sheet timezone,
formatting succeeds and parsing the formatted text raises `ValueError`
instead of returning the original value truncated to seconds. -/
theorem format_parse_roundtrip_cex :
    GSheetsDateTime.format (some 0) (some ⟨2018, 1, 2, 3, 4, 5, 0, some 0⟩) =
      .ok (some "01/02/2018 03:04:05") ∧
    GSheetsDateTime.parse (some 0) (some "01/02/2018 03:04:05") =
      .error "ValueError" ∧
    GSheetsDateTime.parse (some 0) (some "01/02/2018 03:04:05") ≠
      .ok (some ⟨2018, 1, 2, 3, 4, 5, 0, some 0⟩) :=
  ⟨by decide, by decide, by decide⟩

/-- Witness for `format_then_parse_fails` at a concrete naive value. -/
theorem format_then_parse_fails_witness :
    GSheetsDateTime.parse none (some "11/22/1987 10:20:30") =
      .error "ValueError" :=
  format_then_parse_fails none ⟨1987, 11, 22, 10, 20, 30, 0, none⟩
    "11/22/1987 10:20:30" (by decide)

/-! ## URL resolution (C3) -/

/-- C3: `get_url` lets explicit query-string `headers`/`gid`/`sheet` values
override the same-named arguments, except that a `#gid=N` fragment
overrides a query-string gid; if a sheet name is present the output omits
`gid`, otherwise `gid` is always emitted (default 0); `headers` is emitted
only when positive; the output is the fragment-less `urlunparse` of the
original address with the path extended by the `gviz/tq` endpoint.  In
particular `https://docs.google.com/spreadsheets/d/ID/edit#gid=7` resolves
to the endpoint with `gid=7` and no `sheet` or `headers` parameter. -/
theorem get_url_resolution (uri : String) (headers gid : Int)
    (sheet : Option String) :
    (get_url "https://docs.google.com/spreadsheets/d/ID/edit#gid=7" 0 0 none =
      .ok "https://docs.google.com/spreadsheets/d/ID/gviz/tq?gid=7") ∧
    (∀ xs, resolveArgs (pyParseQs (urlparse uri).query) (urlparse uri).fragment
        headers gid sheet = .ok xs →
      get_url uri headers gid sheet =
        .ok (urlunparse (urlparse uri).scheme (urlparse uri).netloc
          (apiPath (urlparse uri).path) (urlencode xs))) ∧
    (∀ sv, lastVal (pyParseQs (urlparse uri).query) "sheet" = some sv →
      effSheet (pyParseQs (urlparse uri).query) sheet = some sv) ∧
    (lastVal (pyParseQs (urlparse uri).query) "sheet" = none →
      effSheet (pyParseQs (urlparse uri).query) sheet = sheet) ∧
    (∀ n g0, fragGid (urlparse uri).fragment = true →
      pyInt (String.mk ((urlparse uri).fragment.data.drop 4)) = .ok n →
      qsGid (pyParseQs (urlparse uri).query) gid = .ok g0 →
      effGid (pyParseQs (urlparse uri).query) (urlparse uri).fragment gid =
        .ok n) ∧
    (∀ gv n, fragGid (urlparse uri).fragment = false →
      lastVal (pyParseQs (urlparse uri).query) "gid" = some gv →
      pyInt gv = .ok n →
      effGid (pyParseQs (urlparse uri).query) (urlparse uri).fragment gid =
        .ok n) ∧
    (fragGid (urlparse uri).fragment = false →
      lastVal (pyParseQs (urlparse uri).query) "gid" = none →
      effGid (pyParseQs (urlparse uri).query) (urlparse uri).fragment gid =
        .ok gid) ∧
    (∀ (hh gg : Int) (ss : String),
      (("headers", intStr hh) ∈ argsOf hh gg (some ss) ↔ hh > 0) ∧
      (("headers", intStr hh) ∈ argsOf hh gg none ↔ hh > 0) ∧
      (∀ p ∈ argsOf hh gg (some ss), p.1 ≠ "gid") ∧
      ("sheet", ss) ∈ argsOf hh gg (some ss) ∧
      ("gid", intStr gg) ∈ argsOf hh gg none ∧
      (∀ p ∈ argsOf hh gg none, p.1 ≠ "sheet")) ∧
    (∃ pre, apiPath (urlparse uri).path = pre ++ "/gviz/tq") := by
  refine ⟨by decide, ?_, ?_, ?_, ?_, ?_, ?_, ?_,
    ⟨rstripSlash (stripEdit (urlparse uri).path), rfl⟩⟩
  · intro xs hxs
    simp only [get_url]
    rw [hxs]
    rfl
  · intro sv hsv
    simp [effSheet, hsv]
  · intro hnone
    simp [effSheet, hnone]
  · intro n g0 hf hp hq
    simp [effGid, hq, hf, hp, Bind.bind, Except.bind]
  · intro gv n hf hq hp
    simp [effGid, qsGid, hq, hp, hf, Bind.bind, Except.bind, pure, Except.pure]
  · intro hf hq
    simp [effGid, qsGid, hq, hf, Bind.bind, Except.bind, pure, Except.pure]
  · intro hh gg ss
    have hns : ("headers" : String) ≠ "sheet" := by decide
    have hng : ("headers" : String) ≠ "gid" := by decide
    have hsg : ("sheet" : String) ≠ "gid" := by decide
    by_cases h : hh > 0 <;>
      simp [argsOf, h, Prod.ext_iff, hns, hng, hsg, hns.symm, hng.symm,
        hsg.symm] <;>
      constructor <;>
      rintro a b (⟨rfl, -⟩ | ⟨rfl, -⟩) <;> decide

/-- Witness for `get_url_resolution`: the fragment-override and
sheet-override branches at concrete URLs, and the spec scenario. -/
theorem get_url_resolution_witness :
    effGid
      (pyParseQs (urlparse
        "https://docs.google.com/spreadsheets/d/XYZ/edit?headers=2&gid=3#gid=9").query)
      (urlparse
        "https://docs.google.com/spreadsheets/d/XYZ/edit?headers=2&gid=3#gid=9").fragment
      0 = .ok 9 ∧
    effSheet
      (pyParseQs (urlparse
        "https://docs.google.com/spreadsheets/d/XYZ/edit?sheet=foo").query)
      none = some "foo" ∧
    get_url "https://docs.google.com/spreadsheets/d/ID/edit#gid=7" 0 0 none =
      .ok "https://docs.google.com/spreadsheets/d/ID/gviz/tq?gid=7" := by
  refine ⟨?_, ?_, (get_url_resolution "x" 0 0 none).1⟩
  · exact (get_url_resolution
      "https://docs.google.com/spreadsheets/d/XYZ/edit?headers=2&gid=3#gid=9"
      0 0 none).2.2.2.2.1 9 3 (by decide) (by decide) (by decide)
  · exact (get_url_resolution
      "https://docs.google.com/spreadsheets/d/XYZ/edit?sheet=foo"
      0 0 none).2.2.1 "foo" (by decide)

/-- C10: for every GSheets typed field variant, `parse` applied to `None`
returns `None`, and `GSheetsDateTime.format` applied to `None` returns
`None`; a missing or null cell value never raises during conversion. -/
theorem null_conversion_safe :
    (∀ tz : Option Int, GSheetsDateTime.parse tz none = .ok none) ∧
    (∀ tz : Option Int, GSheetsDateTime.format tz none = .ok none) ∧
    GSheetsDate.parse none = .ok none ∧
    GSheetsTime.parse none = .ok none :=
  ⟨fun _ => rfl, fun _ => rfl, rfl, rfl⟩

end GSheets
